import Mathlib

/-!
Verification of the zerocfg node/option-registration core (src/node.go).

The `node` record, its `pathName` and `source` methods, and the option
modifiers `Alias`, `Secret`, `Required`, `Group` are embedded as pure Lean
functions; in-place mutation of the Go `*node` receiver becomes explicit
state passing (`Node V → Node V`).  The `Value` interface is abstract in
the source, so the owned value is a type parameter `V`.
-/

namespace Zerocfg

/-- The constant `noSource` from src/node.go line 3. -/
def noSource : String := "default"

/-- The `node` struct from src/node.go lines 6–15: one declared
configuration option.  The owned `Value` is abstracted by the type
parameter `V` since the `Value` interface has no concrete implementation
in the source core. -/
structure Node (V : Type) where
  Name : String
  Description : String
  Aliases : List String
  Value : V
  setSource : String
  isSecret : Bool
  isRequired : Bool
  caller : String

variable {V : Type}

/-- `node.pathName` from src/node.go lines 17–23. -/
def Node.pathName (n : Node V) : String :=
  if n.caller = "" then n.Name else n.caller ++ ":" ++ n.Name

/-- `node.source` from src/node.go lines 25–31. -/
def Node.source (n : Node V) : String :=
  if n.setSource = "" then noSource else n.setSource

/-- `OptNode` from src/node.go line 52: a registration-time modifier of a
node, modelled by explicit state passing instead of in-place mutation. -/
abbrev OptNode (V : Type) : Type := Node V → Node V

/-- `Alias` from src/node.go lines 60–64: appends the alias. -/
def Alias (a : String) : OptNode V :=
  fun n => { n with Aliases := n.Aliases ++ [a] }

/-- `Secret` from src/node.go lines 72–76: sets `isSecret`. -/
def Secret : OptNode V :=
  fun n => { n with isSecret := true }

/-- `Required` from src/node.go lines 98–102: sets `isRequired`. -/
def Required : OptNode V :=
  fun n => { n with isRequired := true }

/-- Modelled from the spec: the `Grp` type is not under src/ (only its use
inside `Group` is).  Per spec §4.4 a group holds a key prefix and a list
of stored option modifiers to cascade. -/
structure Grp (V : Type) where
  pfx : String
  opts : List (OptNode V)

/-- Modelled from the spec: `Grp.key localName` returns the qualified
name `prefix ++ "." ++ localName` (spec §4.4). -/
def Grp.key (g : Grp V) (localName : String) : String :=
  g.pfx ++ "." ++ localName

/-- Modelled from the spec: `Grp.applyOpts` cascades the group's stored
modifiers onto the node in the group's declared order (spec §4.4). -/
def Grp.applyOpts (g : Grp V) (n : Node V) : Node V :=
  g.opts.foldl (fun m o => o m) n

/-- `Group` from src/node.go lines 85–90: rewrites the name through
`g.key`, then cascades `g.applyOpts`. -/
def Group (g : Grp V) : OptNode V :=
  fun n => g.applyOpts { n with Name := g.key n.Name }

/-- The built-in option modifiers of src/node.go: `Alias`, `Secret`,
`Required`, and `Group` over a group whose stored modifiers are
themselves built-in. -/
inductive Builtin : OptNode V → Prop where
  | ofAlias (a : String) : Builtin (Alias a)
  | ofSecret : Builtin Secret
  | ofRequired : Builtin Required
  | ofGroup (g : Grp V) : (∀ o ∈ g.opts, Builtin o) → Builtin (Group g)

/-- The operations of the core, reified for the totality claim:
running any of them either panics (`none`) or returns the post-call node
together with any string result.  Every branch mirrors the corresponding
source body, none of which contains a panic site. -/
inductive CoreOp (V : Type) where
  | pathNameOp
  | sourceOp
  | aliasOp (a : String)
  | secretOp
  | requiredOp
  | groupOp (g : Grp V)

/-- Evaluation of a core operation on a node; `none` would model a Go
panic/abort, which no branch of the source produces. -/
def runOp : CoreOp V → Node V → Option (Node V × String)
  | .pathNameOp, n => some (n, n.pathName)
  | .sourceOp, n => some (n, n.source)
  | .aliasOp a, n => some (Alias a n, "")
  | .secretOp, n => some (Secret n, "")
  | .requiredOp, n => some (Required n, "")
  | .groupOp g, n => some (Group g n, "")

/-- `node.pathName` as an explicit state-passing method (the Go receiver
is a pointer, so a mutation would be visible): returns the post-call node
with the result.  The body mirrors src/node.go lines 17–23, which contain
no assignment to the receiver. -/
def Node.pathNameRun (n : Node V) : Node V × String :=
  if n.caller = "" then (n, n.Name) else (n, n.caller ++ ":" ++ n.Name)

/-- `node.source` as an explicit state-passing method, mirroring
src/node.go lines 25–31, which contain no assignment to the receiver. -/
def Node.sourceRun (n : Node V) : Node V × String :=
  if n.setSource = "" then (n, noSource) else (n, n.setSource)

/-- A concrete node used by the witness theorems: fresh (empty
`setSource`), no caller, local name `"x"`. -/
def sampleNode : Node Unit :=
  { Name := "x", Description := "d", Aliases := [], Value := (),
    setSource := "", isSecret := false, isRequired := false, caller := "" }

/-- A concrete node with a non-empty caller, for the pathName witness. -/
def sampleCalled : Node Unit :=
  { Name := "x", Description := "d", Aliases := [], Value := (),
    setSource := "env", isSecret := false, isRequired := false, caller := "c" }

/-- A concrete node with both flags already set, for the monotonicity
witness. -/
def sampleFlagged : Node Unit :=
  { Name := "x", Description := "d", Aliases := [], Value := (),
    setSource := "", isSecret := true, isRequired := true, caller := "" }

/-- Folding a list of modifiers preserves any property each modifier
preserves. -/
theorem foldl_opts_preserve (P : Node V → Prop) (os : List (OptNode V))
    (h : ∀ o ∈ os, ∀ m : Node V, P m → P (o m)) (n : Node V) (hn : P n) :
    P (os.foldl (fun m o => o m) n) := by
  induction os generalizing n with
  | nil => exact hn
  | cons o os ih =>
      exact ih (fun o2 ho2 m hm => h o2 (List.mem_cons_of_mem _ ho2) m hm)
        (o n) (h o (List.mem_cons_self _ _) n hn)

/-- Every built-in modifier preserves `isSecret = true`. -/
theorem builtin_secret_mono (m : OptNode V) (hm : Builtin m) :
    ∀ n : Node V, n.isSecret = true → (m n).isSecret = true := by
  induction hm with
  | ofAlias a => intro n h; exact h
  | ofSecret => intro n h; rfl
  | ofRequired => intro n h; exact h
  | ofGroup g hg ih =>
      intro n h
      exact foldl_opts_preserve (fun m2 => m2.isSecret = true) g.opts ih
        { n with Name := g.key n.Name } h

/-- Every built-in modifier preserves `isRequired = true`. -/
theorem builtin_required_mono (m : OptNode V) (hm : Builtin m) :
    ∀ n : Node V, n.isRequired = true → (m n).isRequired = true := by
  induction hm with
  | ofAlias a => intro n h; exact h
  | ofSecret => intro n h; exact h
  | ofRequired => intro n h; rfl
  | ofGroup g hg ih =>
      intro n h
      exact foldl_opts_preserve (fun m2 => m2.isRequired = true) g.opts ih
        { n with Name := g.key n.Name } h

/-- `pathNameRun` returns the unchanged node paired with `pathName`. -/
theorem pathNameRun_eq (n : Node V) : n.pathNameRun = (n, n.pathName) := by
  by_cases h : n.caller = "" <;> simp [Node.pathNameRun, Node.pathName, h]

/-- `sourceRun` returns the unchanged node paired with `source`. -/
theorem sourceRun_eq (n : Node V) : n.sourceRun = (n, n.source) := by
  by_cases h : n.setSource = "" <;> simp [Node.sourceRun, Node.source, h]

/-- Claim C1: `pathName()` returns the node's `Name` when `caller` is
empty, and `caller ++ ":" ++ Name` when `caller` is non-empty. -/
theorem pathName_spec (n : Node V) :
    (n.caller = "" → n.pathName = n.Name) ∧
    (n.caller ≠ "" → n.pathName = n.caller ++ ":" ++ n.Name) := by
  constructor <;> intro h <;> simp [Node.pathName, h]

/-- Witness for C1 at concrete nodes with empty and non-empty caller. -/
theorem pathName_spec_witness :
    sampleNode.pathName = "x" ∧ sampleCalled.pathName = "c:x" :=
  ⟨(pathName_spec sampleNode).1 rfl,
   ((pathName_spec sampleCalled).2 (by decide)).trans rfl⟩

/-- Claim C2: `source()` returns `setSource` when non-empty and the
literal `"default"` when `setSource` is empty; in particular a fresh node
(empty `setSource`) reports `"default"`. -/
theorem source_spec (n : Node V) :
    (n.setSource ≠ "" → n.source = n.setSource) ∧
    (n.setSource = "" → n.source = "default") := by
  constructor <;> intro h <;> simp [Node.source, noSource, h]

/-- Witness for C2: a fresh node reports `"default"`, a set node reports
its source tag. -/
theorem source_spec_witness :
    sampleNode.source = "default" ∧ sampleCalled.source = "env" :=
  ⟨(source_spec sampleNode).2 rfl, (source_spec sampleCalled).1 (by decide)⟩

/-- Claim C3: `Group g` first replaces the name by `g.key Name` and only
then invokes `g.applyOpts`, so a modifier cascaded by the group observes
the already-renamed node. -/
theorem Group_order (g : Grp V) (n : Node V) (p : String) (o : OptNode V) :
    Group g n = g.applyOpts { n with Name := g.key n.Name } ∧
    Group (Grp.mk p [o]) n = o { n with Name := p ++ "." ++ n.Name } :=
  ⟨rfl, rfl⟩

/-- Claim C4: applying `Group` with prefix `"a"` then `Group` with prefix
`"b"` to a node named `"x"` yields `"b.a.x"`: each later group wraps the
then-current name, putting its prefix outermost.  The groups' cascaded
modifiers are assumed name-preserving (as all non-Group built-ins are). -/
theorem Group_nesting (os1 os2 : List (OptNode V))
    (h1 : ∀ o ∈ os1, ∀ m : Node V, (o m).Name = m.Name)
    (h2 : ∀ o ∈ os2, ∀ m : Node V, (o m).Name = m.Name)
    (n : Node V) (hn : n.Name = "x") :
    (Group (Grp.mk "b" os2) (Group (Grp.mk "a" os1) n)).Name = "b.a.x" := by
  have hinner : (Group (Grp.mk "a" os1) n).Name = "a" ++ "." ++ n.Name :=
    foldl_opts_preserve (fun m => m.Name = "a" ++ "." ++ n.Name) os1
      (fun o ho m hm => (h1 o ho m).trans hm)
      { n with Name := "a" ++ "." ++ n.Name } rfl
  have houter : (Group (Grp.mk "b" os2) (Group (Grp.mk "a" os1) n)).Name
      = "b" ++ "." ++ (Group (Grp.mk "a" os1) n).Name :=
    foldl_opts_preserve
      (fun m => m.Name = "b" ++ "." ++ (Group (Grp.mk "a" os1) n).Name) os2
      (fun o ho m hm => (h2 o ho m).trans hm)
      { Group (Grp.mk "a" os1) n with
        Name := "b" ++ "." ++ (Group (Grp.mk "a" os1) n).Name } rfl
  rw [houter, hinner, hn]
  rfl

/-- Witness for C4: concrete nested groups (the inner one cascading a
`Secret` modifier) on the sample node named `"x"`. -/
theorem Group_nesting_witness :
    (Group (Grp.mk "b" ([] : List (OptNode Unit)))
      (Group (Grp.mk "a" [Secret]) sampleNode)).Name = "b.a.x" :=
  Group_nesting [Secret] []
    (by intro o ho m; rw [List.mem_singleton] at ho; subst ho; rfl)
    (by intro o ho m; cases ho)
    sampleNode rfl

/-- Claim C5: `Secret` applied one or more times leaves `isSecret = true`,
`Required` likewise for `isRequired`, and no built-in modifier resets
either flag from true to false. -/
theorem secret_required_monotone (k : Nat) (n : Node V)
    (m : OptNode V) (hm : Builtin m) (n2 : Node V) :
    ((Secret^[k + 1]) n).isSecret = true ∧
    ((Required^[k + 1]) n).isRequired = true ∧
    (n2.isSecret = true → (m n2).isSecret = true) ∧
    (n2.isRequired = true → (m n2).isRequired = true) := by
  refine ⟨?_, ?_, builtin_secret_mono m hm n2, builtin_required_mono m hm n2⟩
  · rw [Function.iterate_succ_apply']; rfl
  · rw [Function.iterate_succ_apply']; rfl

/-- Witness for C5 at two iterations, the built-in `Alias "p"` modifier
and a node with both flags already set. -/
theorem secret_required_monotone_witness :
    ((Secret^[2]) sampleNode).isSecret = true ∧
    ((Required^[2]) sampleNode).isRequired = true ∧
    (sampleFlagged.isSecret = true → ((Alias "p") sampleFlagged).isSecret = true) ∧
    (sampleFlagged.isRequired = true → ((Alias "p") sampleFlagged).isRequired = true) :=
  secret_required_monotone 1 sampleNode (Alias "p") (Builtin.ofAlias "p") sampleFlagged

/-- Claim C6: `Alias p` then `Alias q` appends both, in order, after the
existing entries, with no deduplication and no validation of the strings
(empty or duplicate strings included, as `p` and `q` are arbitrary). -/
theorem Alias_append (n : Node V) (p q : String) :
    (Alias q (Alias p n)).Aliases = n.Aliases ++ [p, q] := by
  simp [Alias]

/-- Claim C7: `Alias a`, `Secret` and `Required` commute pairwise in
effect (reordering among multiple `Alias` calls excluded). -/
theorem modifiers_commute (n : Node V) (a : String) :
    Secret (Alias a n) = Alias a (Secret n) ∧
    Required (Alias a n) = Alias a (Required n) ∧
    Secret (Required n) = Required (Secret n) :=
  ⟨rfl, rfl, rfl⟩

/-- Claim C8: no core operation panics or aborts: evaluation of every
reified operation on every node returns a value (is never `none`). -/
theorem core_total (op : CoreOp V) (n : Node V) : (runOp op n).isSome = true := by
  cases op <;> rfl

/-- Claim C9: `pathName` and `source` are side-effect-free and
deterministic: the state-passing versions return the node unchanged, agree
with the pure results, and a second call returns the same string. -/
theorem pathName_source_pure (n : Node V) :
    (n.pathNameRun).1 = n ∧ (n.sourceRun).1 = n ∧
    (n.pathNameRun).2 = n.pathName ∧ (n.sourceRun).2 = n.source ∧
    ((n.pathNameRun).1.pathNameRun).2 = (n.pathNameRun).2 ∧
    ((n.sourceRun).1.sourceRun).2 = (n.sourceRun).2 := by
  rw [pathNameRun_eq, sourceRun_eq]
  exact ⟨rfl, rfl, rfl, rfl, by rw [pathNameRun_eq], by rw [sourceRun_eq]⟩

/-- Claim C10: each non-Group built-in modifier changes only its own
field: `Alias` leaves everything but `Aliases` unchanged, `Secret`
everything but `isSecret`, `Required` everything but `isRequired`; in
particular `Name`, `Description`, `Value`, `setSource` and `caller` are
never disturbed. -/
theorem modifier_frame (n : Node V) (a : String) :
    (Alias a n).Name = n.Name ∧ (Alias a n).Description = n.Description ∧
    (Alias a n).Value = n.Value ∧ (Alias a n).setSource = n.setSource ∧
    (Alias a n).isSecret = n.isSecret ∧ (Alias a n).isRequired = n.isRequired ∧
    (Alias a n).caller = n.caller ∧
    (Secret n).Name = n.Name ∧ (Secret n).Description = n.Description ∧
    (Secret n).Aliases = n.Aliases ∧ (Secret n).Value = n.Value ∧
    (Secret n).setSource = n.setSource ∧ (Secret n).isRequired = n.isRequired ∧
    (Secret n).caller = n.caller ∧
    (Required n).Name = n.Name ∧ (Required n).Description = n.Description ∧
    (Required n).Aliases = n.Aliases ∧ (Required n).Value = n.Value ∧
    (Required n).setSource = n.setSource ∧ (Required n).isSecret = n.isSecret ∧
    (Required n).caller = n.caller :=
  ⟨rfl, rfl, rfl, rfl, rfl, rfl, rfl, rfl, rfl, rfl, rfl, rfl, rfl, rfl,
   rfl, rfl, rfl, rfl, rfl, rfl, rfl⟩

end Zerocfg
